import Mathlib

/-!
Verification of the code-analysis engine of the wizelit code-processing
repository.  The engine is embedded shallowly: JavaScript strings become
`List Char` (obtained from Lean `String.data`), the regular expressions the
source uses are translated into explicit scanning functions with the same
match semantics, and the two divergent copies of the analyzer — the
command-line tool (`analyze-code.js`, namespace `Tools`) and the HTTP
service (`services/code-processor/server.js`, namespace `Service`) — are
embedded separately, exactly as they appear in the source.

Fields driven by the ambient clock (`analyzed_at`, `formatted_at`) are
omitted: they are impure and no verified property mentions them.
-/

/-- JavaScript word character, the class `\w` = `[A-Za-z0-9_]` (ASCII only,
which is also what JavaScript's `\w` and `\b` use). -/
def isWordChar (c : Char) : Bool :=
  (('a' ≤ c && c ≤ 'z') || ('A' ≤ c && c ≤ 'Z') || ('0' ≤ c && c ≤ '9') || c = '_')

/-- JavaScript whitespace, the class `\s`: ASCII whitespace plus the Unicode
space separators, NBSP, BOM and the line/paragraph separators. -/
def jsWs (c : Char) : Bool :=
  (9 ≤ c.toNat && c.toNat ≤ 13) || c.toNat = 32 || c.toNat = 160 ||
  c.toNat = 0x1680 || (0x2000 ≤ c.toNat && c.toNat ≤ 0x200A) ||
  c.toNat = 0x2028 || c.toNat = 0x2029 || c.toNat = 0x202F ||
  c.toNat = 0x205F || c.toNat = 0x3000 || c.toNat = 0xFEFF

/-- Does `pat` occur at the very start of `s`?  (Substring match anchored at
position 0.) -/
def leadsWith : List Char → List Char → Bool
  | [], _ => true
  | _ :: _, [] => false
  | p :: ps, c :: cs => p == c && leadsWith ps cs

/-- JavaScript `String.prototype.includes`: does `pat` occur anywhere in
`s`?  (All our patterns are nonempty and contain no newline.) -/
def containsSub (pat : List Char) : List Char → Bool
  | [] => pat.isEmpty
  | c :: rest => leadsWith pat (c :: rest) || containsSub pat rest

/-- Does the predicate hold on some suffix of `s` (every match position of a
regex scan, including the empty suffix at the end)? -/
def anySuffix (p : List Char → Bool) : List Char → Bool
  | [] => p []
  | c :: rest => p (c :: rest) || anySuffix p rest

/-- JavaScript `code.split('\n')`: split on every linefeed character.  The
result is always nonempty; the empty string yields `[[]]`. -/
def splitOnNl : List Char → List (List Char)
  | [] => [[]]
  | c :: rest =>
    match splitOnNl rest with
    | [] => [[c]]
    | l :: ls => if c = '\n' then [] :: l :: ls else (c :: l) :: ls

/-- Split on every single whitespace character.  JavaScript's
`split(/\s+/)` splits on maximal whitespace runs instead, but after the
`filter((w) => w)` that discards empty segments both give exactly the
maximal non-whitespace runs, which is the only use the source makes of it. -/
def splitOnWs : List Char → List (List Char)
  | [] => [[]]
  | c :: rest =>
    match splitOnWs rest with
    | [] => [[c]]
    | l :: ls => if jsWs c then [] :: l :: ls else (c :: l) :: ls

/-- Length of the initial run of characters satisfying `p`. -/
def takeWhileCount (p : Char → Bool) (l : List Char) : Nat :=
  (l.takeWhile p).length

/-- Is the first character of `l` a word character? -/
def headIsWord : List Char → Bool
  | [] => false
  | d :: _ => isWordChar d

/-- Count of global matches of the literal pattern `pat` (the semantics of
`code.match(new RegExp(escapedLiteral, 'g'))`): scan left to right, on a
match skip past the matched characters (the `skip` counter carries the
remaining characters of the current match), otherwise advance one
position.  All patterns the source passes here are nonempty. -/
def countLitAux (pat : List Char) : List Char → Nat → Nat
  | [], _ => 0
  | _ :: rest, skip + 1 => countLitAux pat rest skip
  | c :: rest, 0 =>
    if leadsWith pat (c :: rest) then
      1 + countLitAux pat rest (pat.length - 1)
    else
      countLitAux pat rest 0

/-- Literal match count starting at the beginning of the string. -/
def countLit (pat : List Char) (s : List Char) : Nat :=
  countLitAux pat s 0

/-- Count of global matches of `\b kw \b` for a keyword of word characters
(the semantics of `code.match(new RegExp('\\b' + kw + '\\b', 'g'))`).  The
boolean argument records whether the previous character was a word
character (`false` at the start of the string); the `skip` counter carries
the remaining characters of the current match, so that after a match the
scan resumes past the keyword with the boundary state of its last
character, exactly as the regex engine's `lastIndex` does. -/
def countWBAux (kw : List Char) : List Char → Nat → Bool → Nat
  | [], _, _ => 0
  | c :: rest, skip + 1, _ => countWBAux kw rest skip (isWordChar c)
  | c :: rest, 0, prevW =>
    if !prevW && leadsWith kw (c :: rest)
        && !headIsWord (List.drop (kw.length - 1) rest) then
      1 + countWBAux kw rest (kw.length - 1) (isWordChar c)
    else
      countWBAux kw rest 0 (isWordChar c)

/-- Word-boundary match count starting at the beginning of the string. -/
def countWB (kw : List Char) (s : List Char) : Nat :=
  countWBAux kw s 0 false

namespace Tools

/-! ## The command-line analyzer (`analyze-code.js`) -/

/-- One detected finding, as pushed by `analyzeCode` in `analyze-code.js`. -/
structure Issue where
  severity : String
  line : Nat
  message : String
  category : String
deriving DecidableEq, Repr

/-- The `metrics` object of the report.  `average_line_length` is
`Math.round(chars / lines)`; the embedding computes the exact rational
rounding `(2c + l) / (2l)` (round half away from zero on nonnegatives),
which agrees with the double-precision computation on all realistic
sizes. -/
structure Metrics where
  lines : Nat
  characters : Nat
  words : Nat
  complexity : Nat
  complexity_rating : String
  function_count : Nat
  average_line_length : Nat
deriving DecidableEq, Repr

/-- The `summary` object: counts of issues by severity. -/
structure Summary where
  total_issues : Nat
  high : Nat
  medium : Nat
  low : Nat
  info : Nat
deriving DecidableEq, Repr

/-- The report returned by the tool's `analyzeCode` (the impure
`analyzed_at` timestamp omitted). -/
structure Report where
  language : String
  metrics : Metrics
  issues : List Issue
  summary : Summary
deriving DecidableEq, Repr

/-- `calculateComplexity` of `analyze-code.js`: seed 1, then for each
keyword in the fixed list add its global match count.  The source tests
`keyword.match(/^\w+$/)` to choose word-boundary matching and regex-escapes
the keyword otherwise; escaping is the identity on the identifier keywords
and turns `&&`, `||` into `\&\&`, `\|\|`, which as regexes match exactly
the two-character literal, embedded here as literal substring counting. -/
def isIdentLike (kw : List Char) : Bool :=
  !kw.isEmpty && kw.all isWordChar

def complexityKeywords : List String := ["if", "else", "for", "while", "case", "&&", "||"]

def calculateComplexity (code : List Char) : Nat :=
  complexityKeywords.foldl
    (fun acc kw =>
      acc + (if isIdentLike kw.data then countWB kw.data code else countLit kw.data code))
    1

/-- The loop body of `findLineNumber`: scan the split lines, returning the
1-based index of the first line containing the pattern. -/
def findLineFrom (pat : List Char) : List (List Char) → Nat → Nat
  | [], _ => 1
  | l :: ls, i => if containsSub pat l then i else findLineFrom pat ls (i + 1)

/-- `findLineNumber` of `analyze-code.js`: 1-based index of the first line
containing `pat`, defaulting to 1. -/
def findLineNumber (code pat : List Char) : Nat :=
  findLineFrom pat (splitOnNl code) 1

/-- `getComplexityRating` of `analyze-code.js`. -/
def getComplexityRating (complexity : Nat) : String :=
  if complexity ≤ 5 then "simple"
  else if complexity ≤ 10 then "moderate"
  else if complexity ≤ 20 then "complex"
  else "very_complex"

/-- Match of `/innerHTML\s*=/` anchored at the start of `s`:  the literal
`innerHTML`, then whitespace (`\s` and `=` are disjoint, so the greedy
`\s*` never needs backtracking), then `=`. -/
def innerHTMLAssignAt (s : List Char) : Bool :=
  leadsWith ("innerHTML".data) s &&
  (match List.dropWhile jsWs (List.drop 9 s) with
   | '=' :: _ => true
   | _ => false)

/-- `code.match(/innerHTML\s*=/)` as a boolean test. -/
def matchInnerHTML (code : List Char) : Bool :=
  anySuffix innerHTMLAssignAt code

/-- Match of `/==(?!=)/` anchored at the start of `s`: two equals signs not
followed by a third. -/
def looseEqAt (s : List Char) : Bool :=
  match s with
  | '=' :: '=' :: rest =>
    match rest with
    | '=' :: _ => false
    | _ => true
  | _ => false

/-- `code.match(/==(?!=)/)` as a boolean test. -/
def matchEqEq (code : List Char) : Bool :=
  anySuffix looseEqAt code

/-- Greedy match length of `/function\s+\w+/` anchored at the start of `s`
(`\s` and `\w` are disjoint classes, so maximal munch is exact). -/
def matchFnDecl (s : List Char) : Option Nat :=
  if leadsWith ("function".data) s then
    let r := List.drop 8 s
    let wsn := takeWhileCount jsWs r
    if wsn = 0 then none
    else
      let wn := takeWhileCount isWordChar (List.drop wsn r)
      if wn = 0 then none else some (8 + wsn + wn)
  else none

/-- Greedy match length of `/\w+\s*=\s*\(/` anchored at the start of `s`. -/
def matchAssignParen (s : List Char) : Option Nat :=
  let wn := takeWhileCount isWordChar s
  if wn = 0 then none
  else
    let r := List.drop wn s
    let s1 := takeWhileCount jsWs r
    match List.drop s1 r with
    | '=' :: r2 =>
      let s2 := takeWhileCount jsWs r2
      match List.drop s2 r2 with
      | '(' :: _ => some (wn + s1 + 1 + s2 + 1)
      | _ => none
    | _ => none

/-- Greedy match length of the arrow-body pattern `=>` followed by optional
whitespace and an opening brace, anchored at the start of `s`. -/
def matchArrow (s : List Char) : Option Nat :=
  match s with
  | '=' :: '>' :: r =>
    let wsn := takeWhileCount jsWs r
    match List.drop wsn r with
    | c :: _ => if c.toNat = 123 then some (2 + wsn + 1) else none
    | _ => none
  | _ => none

/-- Count of global matches of a regex given its anchored greedy matcher
`m` (`null` coalesced to zero by the source's `|| []`), with a skip counter
for the remaining characters of the current match.  None of the three
function-count patterns can match the empty string, so every returned
length is at least 1. -/
def countMatchesAux (m : List Char → Option Nat) : List Char → Nat → Nat
  | [], _ => 0
  | _ :: rest, skip + 1 => countMatchesAux m rest skip
  | c :: rest, 0 =>
    match m (c :: rest) with
    | some l => 1 + countMatchesAux m rest (l - 1)
    | none => countMatchesAux m rest 0

/-- Global match count starting at the beginning of the string. -/
def countMatches (m : List Char → Option Nat) (s : List Char) : Nat :=
  countMatchesAux m s 0

def evalMsg : String := "Dangerous use of eval() detected - security risk"
def xssMsg : String := "Direct innerHTML assignment can lead to XSS vulnerabilities"
def varMsg : String := "Use let or const instead of var for better scoping"
def consoleMsg : String := "Remove console.log statements before production"
def eqMsg : String := "Use === instead of == for strict equality"

/-- `analyzeCode` of `analyze-code.js`, the command-line analysis engine:
metrics, the five sequential detection rules (each pushing at most one
issue), and the severity summary. -/
def analyzeCode (code : String) (language : String := "javascript") : Report :=
  let cs := code.data
  let lines := (splitOnNl cs).length
  let chars := cs.length
  let words := ((splitOnWs cs).filter (fun w => !w.isEmpty)).length
  let issues : List Issue :=
    (if containsSub ("eval(".data) cs then
       [{ severity := "high", line := findLineNumber cs ("eval(".data),
          message := evalMsg, category := "security" }] else [])
    ++ (if matchInnerHTML cs then
       [{ severity := "medium", line := findLineNumber cs ("innerHTML".data),
          message := xssMsg, category := "security" }] else [])
    ++ (if containsSub ("var ".data) cs then
       [{ severity := "low", line := findLineNumber cs ("var ".data),
          message := varMsg, category := "best-practices" }] else [])
    ++ (if containsSub ("console.log".data) cs then
       [{ severity := "info", line := findLineNumber cs ("console.log".data),
          message := consoleMsg, category := "best-practices" }] else [])
    ++ (if matchEqEq cs then
       [{ severity := "low", line := findLineNumber cs ("==".data),
          message := eqMsg, category := "best-practices" }] else [])
  let complexity := calculateComplexity cs
  let functionCount :=
    countMatches matchFnDecl cs + countMatches matchAssignParen cs +
      countMatches matchArrow cs
  { language := language
    metrics :=
      { lines := lines
        characters := chars
        words := words
        complexity := complexity
        complexity_rating := getComplexityRating complexity
        function_count := functionCount
        average_line_length := (2 * chars + lines) / (2 * lines) }
    issues := issues
    summary :=
      { total_issues := issues.length
        high := (issues.filter (fun i => i.severity == "high")).length
        medium := (issues.filter (fun i => i.severity == "medium")).length
        low := (issues.filter (fun i => i.severity == "low")).length
        info := (issues.filter (fun i => i.severity == "info")).length } }

/-! ### Rule tables

The five detection rules of `analyzeCode`, restated as indexed tables for
the proofs: rule `r` fires on the trigger the source tests, emits the fixed
severity/message/category, and looks the line up with the fixed probe
substring the source passes to `findLineNumber`. -/

/-- Trigger of rule `r` (in source order: eval, innerHTML assignment, var,
console.log, loose equality). -/
def ruleFires : Nat → List Char → Bool
  | 0, code => containsSub ("eval(".data) code
  | 1, code => matchInnerHTML code
  | 2, code => containsSub ("var ".data) code
  | 3, code => containsSub ("console.log".data) code
  | 4, code => matchEqEq code
  | _, _ => false

/-- Probe substring rule `r` passes to `findLineNumber`. -/
def ruleProbe : Nat → String
  | 0 => "eval("
  | 1 => "innerHTML"
  | 2 => "var "
  | 3 => "console.log"
  | 4 => "=="
  | _ => ""

/-- Message of rule `r`. -/
def ruleMsg : Nat → String
  | 0 => evalMsg
  | 1 => xssMsg
  | 2 => varMsg
  | 3 => consoleMsg
  | 4 => eqMsg
  | _ => ""

/-- Severity of rule `r`. -/
def ruleSev : Nat → String
  | 0 => "high"
  | 1 => "medium"
  | 2 => "low"
  | 3 => "info"
  | 4 => "low"
  | _ => ""

/-- Category of rule `r`. -/
def ruleCat : Nat → String
  | 0 => "security"
  | 1 => "security"
  | 2 => "best-practices"
  | 3 => "best-practices"
  | 4 => "best-practices"
  | _ => ""

/-- The issue rule `r` pushes when it fires. -/
def mkIssue (r : Nat) (code : List Char) : Issue :=
  { severity := ruleSev r, line := findLineNumber code (ruleProbe r).data,
    message := ruleMsg r, category := ruleCat r }

end Tools

namespace Service

/-! ## The HTTP service's analyzer (`services/code-processor/server.js`) -/

/-- An issue as pushed by the service's `analyzeCode` (no `line` field). -/
structure SvcIssue where
  severity : String
  message : String
  category : String
deriving DecidableEq, Repr

/-- The service's `metrics` object. -/
structure SvcMetrics where
  lines : Nat
  complexity : Nat
  rating : String
deriving DecidableEq, Repr

/-- The service's `summary` object (only `total_issues` and `high`). -/
structure SvcSummary where
  total_issues : Nat
  high : Nat
deriving DecidableEq, Repr

/-- The service's analysis result. -/
structure SvcReport where
  metrics : SvcMetrics
  issues : List SvcIssue
  summary : SvcSummary
deriving DecidableEq, Repr

/-- The service's `calculateComplexity`: seed 1, word-boundary counts of
the five identifier keywords only — no `&&`, no `||`. -/
def calculateComplexity (code : List Char) : Nat :=
  (["if", "else", "for", "while", "case"] : List String).foldl
    (fun acc kw => acc + countWB kw.data code) 1

/-- The service's `analyzeCode`: line count, its own complexity, a single
eval rule, a two-way rating, and a reduced summary. -/
def analyzeCode (code : String) : SvcReport :=
  let cs := code.data
  let lines := (splitOnNl cs).length
  let complexity := calculateComplexity cs
  let issues : List SvcIssue :=
    if containsSub ("eval(".data) cs then
      [{ severity := "high", message := "Use of eval() detected",
         category := "security" }]
    else []
  { metrics :=
      { lines := lines
        complexity := complexity
        rating := if complexity ≤ 10 then "simple" else "complex" }
    issues := issues
    summary :=
      { total_issues := issues.length
        high := (issues.filter (fun i => i.severity == "high")).length } }

/-- One derived suggestion of the service's `/analyze` endpoint. -/
structure Suggestion where
  type : String
  message : String
deriving DecidableEq, Repr

/-- The security-fix suggestion pushed for one high-severity issue:
`Fix ${issue.category} issue: ${issue.message}`. -/
def securityFix (issue : SvcIssue) : Suggestion :=
  { type := "security",
    message := "Fix " ++ issue.category ++ " issue: " ++ issue.message }

/-- `generateSuggestions` of `server.js`: one refactoring suggestion when
complexity exceeds 10, then one security-fix suggestion per high-severity
issue, in issue order (the source's `forEach`/`push` loop rendered as a
guarded `filterMap`). -/
def generateSuggestions (analysis : SvcReport) : List Suggestion :=
  (if analysis.metrics.complexity > 10 then
     [{ type := "refactoring",
        message := "Consider breaking down complex functions into smaller ones" }]
   else [])
  ++ analysis.issues.filterMap (fun issue =>
       if issue.severity == "high" then some (securityFix issue) else none)

end Service

/-! ## Specification-side line numbering

`specLine` renders the spec's description of issue line numbers — "1-based
index of the first line containing the pattern, defaulting to 1" — for an
arbitrary line-level test, so that the code's probe-substring lookup can be
compared with the claim's rule-pattern lookup. -/

/-- 0-based index of the first element satisfying `p`, if any. -/
def firstHit (p : List Char → Bool) : List (List Char) → Option Nat
  | [] => none
  | l :: ls => if p l then some 0 else (firstHit p ls).map (· + 1)

/-- 1-based index of the first line of `code` satisfying the line test `p`,
defaulting to 1 when no line does. -/
def specLine (p : List Char → Bool) (code : List Char) : Nat :=
  match firstHit p (splitOnNl code) with
  | some i => i + 1
  | none => 1

/-! ## Helper lemmas -/

theorem range_five : List.range 5 = [0, 1, 2, 3, 4] := rfl

/-- The five sequential pushes of `analyzeCode` produce exactly the fired
rules of the rule table, in rule order. -/
theorem Tools.issues_eq (code lang : String) :
    (Tools.analyzeCode code lang).issues
      = ((List.range 5).filter (fun r => Tools.ruleFires r code.data)).map
          (fun r => Tools.mkIssue r code.data) := by
  rw [range_five]
  by_cases h0 : containsSub ("eval(".data) code.data <;>
    by_cases h1 : Tools.matchInnerHTML code.data <;>
      by_cases h2 : containsSub ("var ".data) code.data <;>
        by_cases h3 : containsSub ("console.log".data) code.data <;>
          by_cases h4 : Tools.matchEqEq code.data <;>
            simp [Tools.analyzeCode, Tools.ruleFires, Tools.mkIssue, Tools.ruleSev,
              Tools.ruleMsg, Tools.ruleCat, Tools.ruleProbe, List.filter,
              h0, h1, h2, h3, h4]

/-- The line scan of `findLineNumber` agrees with the 0-based first-hit
search, offset by the running index. -/
theorem Tools.findLineFrom_eq_firstHit (pat : List Char) :
    ∀ (ls : List (List Char)) (i : Nat),
      Tools.findLineFrom pat ls i
        = match firstHit (fun l => containsSub pat l) ls with
          | some j => i + j
          | none => 1 := by
  intro ls
  induction ls with
  | nil => intro i; rfl
  | cons a t ih =>
    intro i
    by_cases h : containsSub pat a
    · simp [Tools.findLineFrom, firstHit, h]
    · have hs : firstHit (fun l => containsSub pat l) (a :: t)
          = (firstHit (fun l => containsSub pat l) t).map (· + 1) := by
        simp [firstHit, h]
      rw [hs, Tools.findLineFrom, if_neg (by simp [h]), ih (i + 1)]
      cases hfh : firstHit (fun l => containsSub pat l) t with
      | none => rfl
      | some v =>
        show i + 1 + v = i + (v + 1)
        omega

/-- `findLineNumber` computes the spec's line rule for its probe substring:
1-based index of the first line containing it, defaulting to 1. -/
theorem Tools.findLineNumber_eq_specLine (code pat : List Char) :
    Tools.findLineNumber code pat = specLine (fun l => containsSub pat l) code := by
  rw [Tools.findLineNumber, Tools.findLineFrom_eq_firstHit, specLine]
  cases hfh : firstHit (fun l => containsSub pat l) (splitOnNl code) with
  | none => rfl
  | some v =>
    show 1 + v = v + 1
    omega

/-- The split of any string into lines is nonempty. -/
theorem splitOnNl_length_pos (s : List Char) : 1 ≤ (splitOnNl s).length := by
  induction s with
  | nil => simp [splitOnNl]
  | cons c t ih =>
    rw [splitOnNl]
    cases h : splitOnNl t with
    | nil => simp
    | cons l ls => by_cases hc : c = '\n' <;> simp [hc]

/-- The scan of `findLineFrom` returns either the default 1 or an index
within the window starting at `i`. -/
theorem Tools.findLineFrom_cases (pat : List Char) :
    ∀ (ls : List (List Char)) (i : Nat),
      Tools.findLineFrom pat ls i = 1 ∨
        (i ≤ Tools.findLineFrom pat ls i ∧
          Tools.findLineFrom pat ls i + 1 ≤ i + ls.length) := by
  intro ls
  induction ls with
  | nil => intro i; left; rfl
  | cons l t ih =>
    intro i
    by_cases h : containsSub pat l
    · right
      rw [Tools.findLineFrom, if_pos (by simp [h])]
      refine ⟨le_refl i, ?_⟩
      simp only [List.length_cons]
      omega
    · rw [Tools.findLineFrom, if_neg (by simp [h])]
      rcases ih (i + 1) with h1 | ⟨h1, h2⟩
      · left; exact h1
      · right
        constructor
        · omega
        · simp only [List.length_cons]; omega

/-- `findLineNumber` always returns a value between 1 and the number of
lines of the input. -/
theorem Tools.findLineNumber_bounds (code pat : List Char) :
    1 ≤ Tools.findLineNumber code pat ∧
      Tools.findLineNumber code pat ≤ (splitOnNl code).length := by
  have hp := splitOnNl_length_pos code
  rw [Tools.findLineNumber]
  rcases Tools.findLineFrom_cases pat (splitOnNl code) 1 with h | ⟨h1, h2⟩
  · rw [h]; exact ⟨le_refl 1, hp⟩
  · exact ⟨h1, by omega⟩

/-- Filtering a guarded `filterMap` (push `f x` when `p x`) by a predicate
false on every pushed element yields nothing. -/
theorem filterMap_guard_filter_neg {α β : Type} (f : α → β) (p : α → Bool)
    (q : β → Bool) (hq : ∀ x, q (f x) = false) (l : List α) :
    ((l.filterMap (fun x => if p x then some (f x) else none)).filter q) = [] := by
  induction l with
  | nil => rfl
  | cons a t ih => by_cases h : p a <;> simp [List.filterMap_cons, h, ih, List.filter, hq]

/-- Filtering a guarded `filterMap` by a predicate true on every pushed
element changes nothing. -/
theorem filterMap_guard_filter_pos {α β : Type} (f : α → β) (p : α → Bool)
    (q : β → Bool) (hq : ∀ x, q (f x) = true) (l : List α) :
    ((l.filterMap (fun x => if p x then some (f x) else none)).filter q)
      = l.filterMap (fun x => if p x then some (f x) else none) := by
  induction l with
  | nil => rfl
  | cons a t ih => by_cases h : p a <;> simp [List.filterMap_cons, h, ih, List.filter, hq]

/-- A guarded `filterMap` keeps exactly the elements satisfying the guard. -/
theorem filterMap_guard_length {α β : Type} (f : α → β) (p : α → Bool) (l : List α) :
    (l.filterMap (fun x => if p x then some (f x) else none)).length
      = (l.filter p).length := by
  induction l with
  | nil => rfl
  | cons a t ih => by_cases h : p a <;> simp [List.filterMap_cons, List.filter, h, ih]

/-! ## Claims -/

/-- C1: the single-shot command path and the request/response service path
must produce identical `metrics.complexity` and identical Issue sets for
every input string.  The code violates this invariant (the drift the spec
itself flags): on the input `var x = a && b` the command-line analyzer
reports complexity 2 (it counts `&&`) and one low-severity `var` issue,
while the service analyzer reports complexity 1 and no issues at all. -/
theorem C1_cross_caller_divergence :
    (Tools.analyzeCode "var x = a && b").metrics.complexity = 2 ∧
    (Service.analyzeCode "var x = a && b").metrics.complexity = 1 ∧
    (Tools.analyzeCode "var x = a && b").issues.map Tools.Issue.severity = ["low"] ∧
    (Service.analyzeCode "var x = a && b").issues = [] :=
  ⟨by decide, by decide, by decide, by decide⟩

/-- C2: `analyze("if (a == b) \x7b\x7d")` emits exactly one low-severity
loose-equality Issue, as the claim states; but `analyze("if (a === b) \x7b\x7d")`
ALSO emits that Issue, contradicting the claim's second half: the source's
`/==(?!=)/` has no lookbehind, so it matches the last two characters of
`===` (the lookahead there sees a space). -/
theorem C2_loose_equality_behavior :
    (Tools.analyzeCode "if (a == b) \x7b\x7d").issues
      = [{ severity := "low", line := 1, message := Tools.eqMsg,
           category := "best-practices" }] ∧
    (Tools.analyzeCode "if (a === b) \x7b\x7d").issues
      = [{ severity := "low", line := 1, message := Tools.eqMsg,
           category := "best-practices" }] :=
  ⟨by decide, by decide⟩

/-- C3 (counterexample): on `x.innerHTML\ny.innerHTML = 1` the innerHTML
rule fires (only line 2 matches the assignment regex), yet the emitted
Issue carries line 1, because the per-line scan searches for the bare probe
substring `innerHTML`, which already occurs on line 1.  The claim — line =
first line containing the pattern matched by the rule — predicts 2. -/
theorem C3_counterexample :
    (Tools.analyzeCode "x.innerHTML\ny.innerHTML = 1").issues.map Tools.Issue.line
      = [1] ∧
    (Tools.analyzeCode "x.innerHTML\ny.innerHTML = 1").issues.map Tools.Issue.message
      = [Tools.xssMsg] ∧
    specLine Tools.matchInnerHTML ("x.innerHTML\ny.innerHTML = 1").data = 2 ∧
    (Tools.analyzeCode "x.innerHTML\ny.innerHTML = 1").issues.map Tools.Issue.line
      ≠ [specLine Tools.matchInnerHTML ("x.innerHTML\ny.innerHTML = 1").data] :=
  ⟨by decide, by decide, by decide, by decide⟩

/-- C3 (amended): for every input, the emitted Issues are exactly the fired
rules in rule order, and each Issue's line equals the 1-based index of the
first line containing that rule's fixed probe substring — `eval(`,
`innerHTML`, `var `, `console.log`, `==` respectively — defaulting to 1
when no line contains the probe.  (For the innerHTML rule the probe is the
bare substring, weaker than the detection regex.) -/
theorem C3_line_numbers_amended (code lang : String) :
    (Tools.analyzeCode code lang).issues.map (fun i => (i.message, i.line))
      = ((List.range 5).filter (fun r => Tools.ruleFires r code.data)).map
          (fun r => (Tools.ruleMsg r,
            specLine (fun l => containsSub (Tools.ruleProbe r).data l) code.data)) := by
  rw [Tools.issues_eq]
  have key : ∀ fl : List Nat,
      (fl.map (fun r => Tools.mkIssue r code.data)).map (fun i => (i.message, i.line))
        = fl.map (fun r => (Tools.ruleMsg r,
            specLine (fun l => containsSub (Tools.ruleProbe r).data l) code.data)) := by
    intro fl
    induction fl with
    | nil => rfl
    | cons a t ih =>
      simp only [List.map_cons, ih]
      congr 1
      show (Tools.ruleMsg a, Tools.findLineNumber code.data (Tools.ruleProbe a).data) = _
      rw [Tools.findLineNumber_eq_specLine]
  exact key _

/-- C4: for every input, `metrics.complexity` is 1 plus the occurrence
counts of the seven members of the fixed set, with word-boundary counting
for the identifier keywords and literal substring counting for the escaped
operators `&&` and `||`. -/
theorem C4_complexity_formula (code : List Char) :
    Tools.calculateComplexity code
      = 1 + countWB ("if".data) code + countWB ("else".data) code
          + countWB ("for".data) code + countWB ("while".data) code
          + countWB ("case".data) code + countLit ("&&".data) code
          + countLit ("||".data) code := rfl

/-- C5: `complexity_rating` is the pure threshold function of `complexity`
(≤5 simple, ≤10 moderate, ≤20 complex, else very_complex); an input with
exactly five decision keywords has complexity 6 and rating moderate, one
with exactly four has complexity 5 and rating simple. -/
theorem C5_rating_thresholds :
    (∀ n : Nat, n ≤ 5 → Tools.getComplexityRating n = "simple") ∧
    (∀ n : Nat, 5 < n → n ≤ 10 → Tools.getComplexityRating n = "moderate") ∧
    (∀ n : Nat, 10 < n → n ≤ 20 → Tools.getComplexityRating n = "complex") ∧
    (∀ n : Nat, 20 < n → Tools.getComplexityRating n = "very_complex") ∧
    (Tools.analyzeCode "if if if if if").metrics.complexity = 6 ∧
    (Tools.analyzeCode "if if if if if").metrics.complexity_rating = "moderate" ∧
    (Tools.analyzeCode "if if if if").metrics.complexity = 5 ∧
    (Tools.analyzeCode "if if if if").metrics.complexity_rating = "simple" := by
  refine ⟨?_, ?_, ?_, ?_, by decide, by decide, by decide, by decide⟩
  · intro n h
    simp only [Tools.getComplexityRating]
    rw [if_pos h]
  · intro n h1 h2
    simp only [Tools.getComplexityRating]
    rw [if_neg (by omega), if_pos h2]
  · intro n h1 h2
    simp only [Tools.getComplexityRating]
    rw [if_neg (by omega), if_neg (by omega), if_pos h2]
  · intro n h1
    simp only [Tools.getComplexityRating]
    rw [if_neg (by omega), if_neg (by omega), if_neg (by omega)]

/-- Witness for C5: the thresholds evaluated at 3, 7, 15 and 25. -/
theorem C5_rating_thresholds_witness :
    Tools.getComplexityRating 3 = "simple" ∧
    Tools.getComplexityRating 7 = "moderate" ∧
    Tools.getComplexityRating 15 = "complex" ∧
    Tools.getComplexityRating 25 = "very_complex" :=
  ⟨C5_rating_thresholds.1 3 (by decide),
   C5_rating_thresholds.2.1 7 (by decide) (by decide),
   C5_rating_thresholds.2.2.1 15 (by decide) (by decide),
   C5_rating_thresholds.2.2.2.1 25 (by decide)⟩

/-- C6: for every input, `summary.total_issues` equals the number of
emitted Issues, and the four severity counts of the summary sum to that
same number. -/
theorem C6_summary_consistency (code lang : String) :
    (Tools.analyzeCode code lang).summary.total_issues
      = (Tools.analyzeCode code lang).issues.length ∧
    (Tools.analyzeCode code lang).summary.high
        + (Tools.analyzeCode code lang).summary.medium
        + (Tools.analyzeCode code lang).summary.low
        + (Tools.analyzeCode code lang).summary.info
      = (Tools.analyzeCode code lang).issues.length := by
  constructor
  · rfl
  · by_cases h0 : containsSub ("eval(".data) code.data <;>
      by_cases h1 : Tools.matchInnerHTML code.data <;>
        by_cases h2 : containsSub ("var ".data) code.data <;>
          by_cases h3 : containsSub ("console.log".data) code.data <;>
            by_cases h4 : Tools.matchEqEq code.data <;>
              simp [Tools.analyzeCode, List.filter, h0, h1, h2, h3, h4]

/-- C7: the empty input yields one line, complexity 1, no issues and a zero
total in the summary. -/
theorem C7_empty_input :
    (Tools.analyzeCode "").metrics.lines = 1 ∧
    (Tools.analyzeCode "").metrics.complexity = 1 ∧
    (Tools.analyzeCode "").issues = [] ∧
    (Tools.analyzeCode "").summary.total_issues = 0 :=
  ⟨by decide, by decide, by decide, by decide⟩

/-- C8: for every input, at most five Issues are emitted, each rule
contributes at most one of them, and the Issues appear in the fixed
rule-evaluation order (their messages are the fired rules' messages in
rule order); the concrete input `console.log(a == b)` shows the order is
rule order (info before low), not severity order. -/
theorem C8_rule_order (code lang : String) :
    (Tools.analyzeCode code lang).issues.length ≤ 5 ∧
    (∀ r : Nat, ((Tools.analyzeCode code lang).issues.filter
        (fun i => i.message == Tools.ruleMsg r)).length ≤ 1) ∧
    (Tools.analyzeCode code lang).issues.map Tools.Issue.message
      = ((List.range 5).filter (fun r => Tools.ruleFires r code.data)).map
          Tools.ruleMsg ∧
    (Tools.analyzeCode "console.log(a == b)").issues.map Tools.Issue.severity
      = ["info", "low"] := by
  refine ⟨?_, ?_, ?_, by decide⟩
  · rw [Tools.issues_eq, List.length_map]
    have h := (List.filter_sublist (p := fun r => Tools.ruleFires r code.data)
      (List.range 5)).length_le
    simpa using h
  · intro r
    rw [Tools.issues_eq, List.filter_map, List.length_map]
    have hq : ((List.range 5).filter (fun r' => Tools.ruleFires r' code.data)).filter
          ((fun i => i.message == Tools.ruleMsg r)
            ∘ (fun r' => Tools.mkIssue r' code.data))
        = ((List.range 5).filter (fun r' => Tools.ruleFires r' code.data)).filter
            (fun r' => Tools.ruleMsg r' == Tools.ruleMsg r) := rfl
    rw [hq]
    have hsub := ((List.filter_sublist (p := fun r' => Tools.ruleFires r' code.data)
      (List.range 5)).filter (fun r' => Tools.ruleMsg r' == Tools.ruleMsg r)).length_le
    refine le_trans hsub ?_
    rcases Nat.lt_or_ge r 5 with h | h
    · interval_cases r <;> decide
    · have h5 : Tools.ruleMsg r = "" := by
        obtain ⟨n, rfl⟩ : ∃ n, r = n + 5 := ⟨r - 5, by omega⟩
        rfl
      rw [h5]
      decide
  · rw [Tools.issues_eq]
    have key : ∀ fl : List Nat,
        (fl.map (fun r => Tools.mkIssue r code.data)).map Tools.Issue.message
          = fl.map Tools.ruleMsg := by
      intro fl
      induction fl with
      | nil => rfl
      | cons a t ih =>
        simp only [List.map_cons, ih]
        rfl
    exact key _

/-- C9: for every analysis result, the service's suggestion generator emits
exactly one refactoring suggestion when complexity exceeds 10 and none
otherwise, exactly one security-fix suggestion per high-severity issue, and
nothing else (the total length is the sum of the two counts). -/
theorem C9_suggestions (a : Service.SvcReport) :
    ((Service.generateSuggestions a).filter
        (fun s => s.type == "refactoring")).length
      = (if a.metrics.complexity > 10 then 1 else 0) ∧
    ((Service.generateSuggestions a).filter
        (fun s => s.type == "security")).length
      = (a.issues.filter (fun i => i.severity == "high")).length ∧
    (Service.generateSuggestions a).length
      = (if a.metrics.complexity > 10 then 1 else 0)
        + (a.issues.filter (fun i => i.severity == "high")).length := by
  refine ⟨?_, ?_, ?_⟩ <;>
    simp only [Service.generateSuggestions, List.filter_append, List.length_append]
  · rw [filterMap_guard_filter_neg Service.securityFix
      (fun i => i.severity == "high") (fun s => s.type == "refactoring")
      (fun x => rfl) a.issues]
    by_cases h : a.metrics.complexity > 10 <;> simp [h, List.filter]
  · rw [filterMap_guard_filter_pos Service.securityFix
      (fun i => i.severity == "high") (fun s => s.type == "security")
      (fun x => rfl) a.issues]
    rw [filterMap_guard_length Service.securityFix
      (fun i => i.severity == "high") a.issues]
    by_cases h : a.metrics.complexity > 10 <;> simp [h, List.filter]
  · rw [filterMap_guard_length Service.securityFix
      (fun i => i.severity == "high") a.issues]
    by_cases h : a.metrics.complexity > 10 <;> simp [h]

/-- C10: every emitted Issue's line number lies between 1 and the input's
line count (`metrics.lines`), for every input. -/
theorem C10_line_in_range (code lang : String) (iss : Tools.Issue)
    (h : iss ∈ (Tools.analyzeCode code lang).issues) :
    1 ≤ iss.line ∧ iss.line ≤ (Tools.analyzeCode code lang).metrics.lines := by
  rw [Tools.issues_eq] at h
  obtain ⟨r, _, rfl⟩ := List.mem_map.mp h
  have hline : (Tools.mkIssue r code.data).line
      = Tools.findLineNumber code.data (Tools.ruleProbe r).data := rfl
  have hm : (Tools.analyzeCode code lang).metrics.lines
      = (splitOnNl code.data).length := rfl
  rw [hline, hm]
  exact Tools.findLineNumber_bounds code.data (Tools.ruleProbe r).data

/-- Witness for C10: the `var` Issue emitted on input `var x` has line 1,
within the single-line range. -/
theorem C10_line_in_range_witness :
    1 ≤ (Tools.mkIssue 2 ("var x".data)).line ∧
    (Tools.mkIssue 2 ("var x".data)).line
      ≤ (Tools.analyzeCode "var x" "javascript").metrics.lines :=
  C10_line_in_range "var x" "javascript" (Tools.mkIssue 2 ("var x".data)) (by decide)
